import Mathlib

/-!
Verification of `generator.py` (the SNGAN generator module).

The Python module is a declarative TensorFlow graph builder: every function
returns a symbolic tensor built from calls into TensorFlow and into the
repository's `ops` library (linear projection, 2D convolution,
conditional/plain batch normalization).  We embed it at two levels:

* a computation-graph AST `GExpr` whose constructors are exactly the
  framework operations the module invokes, together with static shape
  inference `inferShape` (TensorFlow 1.x raises shape errors at graph
  construction time, so "construction error" is modelled as `inferShape`
  returning `none`); the module functions `upscale`, `usample`,
  `usample_tpu`, `block` and `generator` are translated line by line as
  graph builders;

* a value-level semantics `Val` of the data-movement operations used by
  the upsampling path (`tf.tile`, `tf.batch_to_space`,
  `tf.image.resize_nearest_neighbor`), on concrete 4D tensors, used to
  compare `usample_tpu` with `usample`.
-/

namespace SNGAN

/-- Symbolic computation graph. Each constructor is one of the framework
calls appearing in `generator.py`: `input` is a placeholder tensor of known
static shape, `linear`/`conv2d`/`condBatchNorm`/`batchNorm` are the calls
into the `ops` library, and the remaining constructors are the raw
TensorFlow calls (`tf.reshape`, `tf.nn.relu`, `tf.nn.tanh`, `+`, `tf.tile`,
`tf.batch_to_space` with zero crops, `tf.image.resize_nearest_neighbor`). -/
inductive GExpr where
  | input (shape : List Nat)
  | linear (x : GExpr) (units : Nat) (name : String)
  | reshape (x : GExpr) (dims : List Int)
  | conv2d (x : GExpr) (outChannels kh kw dh dw : Nat) (name : String)
  | condBatchNorm (x : GExpr) (labels : GExpr) (numClasses : Nat) (name : String)
  | batchNorm (x : GExpr) (name : String)
  | relu (x : GExpr)
  | tanh (x : GExpr)
  | add (x y : GExpr)
  | tile (x : GExpr) (multiples : List Nat)
  | batchToSpace (x : GExpr) (blockSize : Nat)
  | resizeNN (x : GExpr) (th tw : Nat)
deriving DecidableEq

/-- Product of the entries of a static shape. -/
def shapeProd (s : List Nat) : Nat := s.foldr (· * ·) 1

/-- Modelled from the spec: `ops.linear` ("linear projection", not under
`src/`) maps a rank-2 input `[batch, features]` to `[batch, units]`;
any other rank is a framework error. -/
def linearRule (s : List Nat) (units : Nat) : Option (List Nat) :=
  match s with
  | [b, _] => some [b, units]
  | _ => none

/-- Shape rule of `tf.reshape` with at most one `-1` dimension: the `-1`
entry is inferred so that the total size is preserved; a size mismatch is a
framework error. -/
def reshapeRule (s : List Nat) (dims : List Int) : Option (List Nat) :=
  let total := shapeProd s
  let negCount := dims.countP (fun d => d < 0)
  let known := shapeProd (dims.filterMap (fun d => if d < 0 then none else some d.toNat))
  if negCount = 0 then
    if known = total then some (dims.map Int.toNat) else none
  else if negCount = 1 then
    if known ≠ 0 ∧ total % known = 0 then
      some (dims.map (fun d => if d < 0 then total / known else d.toNat))
    else none
  else none

/-- Modelled from the spec: `ops.conv2d` ("2D convolution", not under
`src/`) with SAME padding maps `[b, h, w, c]` to
`[b, ceil(h / dh), ceil(w / dw), outChannels]`; a rank other than 4 or a
zero stride is a framework error. -/
def conv2dRule (s : List Nat) (outChannels kh kw dh dw : Nat) : Option (List Nat) :=
  match s with
  | [b, h, w, _] =>
      if dh = 0 ∨ dw = 0 then none
      else some [b, (h + dh - 1) / dh, (w + dw - 1) / dw, outChannels]
  | _ => none

/-- Modelled from the spec: `ops.ConditionalBatchNorm` ("conditional batch
normalization", not under `src/`) preserves the shape of its rank-4 input;
any other rank is a framework error. -/
def cbnRule (s : List Nat) : Option (List Nat) :=
  if s.length = 4 then some s else none

/-- Modelled from the spec: `ops.BatchNorm` ("batch normalization", not
under `src/`) preserves the shape of its rank-4 input. -/
def bnRule (s : List Nat) : Option (List Nat) :=
  if s.length = 4 then some s else none

/-- Shape rule of `tf.tile`: each dimension is multiplied by the matching
entry of `multiples`; a length mismatch is a framework error. -/
def tileRule (s : List Nat) (multiples : List Nat) : Option (List Nat) :=
  if s.length = multiples.length then some (List.zipWith (· * ·) multiples s) else none

/-- Shape rule of `tf.batch_to_space` with block size `n` and zero crops:
`[b, h, w, c]` maps to `[b / n^2, h * n, w * n, c]`; a batch not divisible
by `n^2`, a zero block size, or a rank other than 4 is a framework error. -/
def batchToSpaceRule (s : List Nat) (n : Nat) : Option (List Nat) :=
  match s with
  | [b, h, w, c] =>
      if n = 0 then none
      else if b % (n * n) = 0 then some [b / (n * n), h * n, w * n, c] else none
  | _ => none

/-- Shape rule of `tf.image.resize_nearest_neighbor` to target size
`[th, tw]`. -/
def resizeRule (s : List Nat) (th tw : Nat) : Option (List Nat) :=
  match s with
  | [b, _, _, c] => some [b, th, tw, c]
  | _ => none

/-- Shape rule of elementwise `+` (used with equal shapes in `block`). -/
def addRule (s1 s2 : List Nat) : Option (List Nat) :=
  if s1 = s2 then some s1 else none

/-- Static shape inference over the graph, mirroring TensorFlow 1.x graph
construction: the result is `none` exactly when some framework call in the
graph rejects the shapes of its inputs. -/
def inferShape : GExpr → Option (List Nat)
  | .input s => some s
  | .linear x units _ => (inferShape x).bind (fun sx => linearRule sx units)
  | .reshape x dims => (inferShape x).bind (fun sx => reshapeRule sx dims)
  | .conv2d x oc kh kw dh dw _ => (inferShape x).bind (fun sx => conv2dRule sx oc kh kw dh dw)
  | .condBatchNorm x l _ _ =>
      (inferShape x).bind (fun sx => (inferShape l).bind (fun _ => cbnRule sx))
  | .batchNorm x _ => (inferShape x).bind bnRule
  | .relu x => inferShape x
  | .tanh x => inferShape x
  | .add x y => (inferShape x).bind (fun sx => (inferShape y).bind (fun sy => addRule sx sy))
  | .tile x m => (inferShape x).bind (fun sx => tileRule sx m)
  | .batchToSpace x n => (inferShape x).bind (fun sx => batchToSpaceRule sx n)
  | .resizeNN x th tw => (inferShape x).bind (fun sx => resizeRule sx th tw)

/-- Translation of `upscale(x, n)`: box upscaling; returns `x` unchanged
when `n == 1`, otherwise `tf.batch_to_space(tf.tile(x, [n**2, 1, 1, 1]),
[[0, 0], [0, 0]], n)`. -/
def upscale (x : GExpr) (n : Nat) : GExpr :=
  if n = 1 then x else .batchToSpace (.tile x [n ^ 2, 1, 1, 1]) n

/-- Translation of `usample_tpu(x)`: `upscale(x, 2)`. -/
def usample_tpu (x : GExpr) : GExpr := upscale x 2

/-- Translation of the graph built by `usample(x)`: reads the static shape
of `x` (`x.get_shape().as_list()`) and resizes to `[nh * 2, nw * 2]` by
nearest neighbors.  This total builder is exact for rank-4 static shapes,
the only case in which `usample` builds a graph at all.  On any other
static shape the source never reaches the resize call: its own tuple
unpacking `_, nh, nw, nx = ...` raises a builtin ValueError in module code.
That module-level abort is not a graph and is therefore modelled
separately, by `usampleConstruct` below; the degenerate branch here only
keeps this builder total where the source would already have raised. -/
def usample (x : GExpr) : GExpr :=
  match inferShape x with
  | some [_, nh, nw, _] => .resizeNN x (nh * 2) (nw * 2)
  | _ => .resizeNN x 0 0

/-- Construction behavior of `usample(x)` as the source has it, with the
module-level failure made explicit: `x.get_shape().as_list()` is a
framework call that succeeds whenever `x` was built, and the module's own
statement `_, nh, nw, nx = ...` then unpacks exactly four entries.  When
the static shape has rank 4 construction returns the resize graph; on any
other rank the unpacking itself raises a builtin ValueError (`none`) — an
error originating in module code, before any framework operation on the
result is attempted. -/
def usampleConstruct (x : GExpr) : Option GExpr :=
  match inferShape x with
  | some [_, nh, nw, _] => some (.resizeNN x (nh * 2) (nw * 2))
  | _ => none

/-- Translation of `block(x, labels, out_channels, num_classes, name)`: the
residual block of the generator.  Main path: conditional batch norm
(`cbn_0`), relu, upsample, 3x3 stride-1 conv (`conv1`), conditional batch
norm (`cbn_1`), relu is applied before each conv, and a second 3x3 stride-1
conv (`conv2`).  Shortcut path: upsample then 1x1 stride-1 conv (`conv3`).
The block returns `x_0 + x`. -/
def block (x labels : GExpr) (out_channels num_classes : Nat) (name : String) : GExpr :=
  let x1 := GExpr.relu (GExpr.condBatchNorm x labels num_classes (name ++ "/cbn_0"))
  let x2 := usample x1
  let x3 := GExpr.conv2d x2 out_channels 3 3 1 1 (name ++ "/conv1")
  let x4 := GExpr.relu (GExpr.condBatchNorm x3 labels num_classes (name ++ "/cbn_1"))
  let x5 := GExpr.conv2d x4 out_channels 3 3 1 1 (name ++ "/conv2")
  let y0 := usample x
  let y1 := GExpr.conv2d y0 out_channels 1 1 1 1 (name ++ "/conv3")
  GExpr.add y1 x5

/-- Translation of `generator(zs, target_class, gf_dim, num_classes,
scope)`: linear projection `g_h0` to `gf_dim * 16 * 4 * 4` units, reshape
to `[-1, 4, 4, gf_dim * 16]`, five residual blocks `g_block1` .. `g_block5`
with output channels `gf_dim * 16, gf_dim * 8, gf_dim * 4, gf_dim * 2,
gf_dim`, batch norm `g_bn`, relu, 3x3 stride-1 conv `g_conv_last` to 3
channels, and tanh. -/
def generator (zs target_class : GExpr) (gf_dim num_classes : Nat) (scope : String) : GExpr :=
  let act0 := GExpr.linear zs (gf_dim * 16 * 4 * 4) (scope ++ "/g_h0")
  let act0r := GExpr.reshape act0 [-1, 4, 4, Int.ofNat (gf_dim * 16)]
  let act1 := block act0r target_class (gf_dim * 16) num_classes (scope ++ "/g_block1")
  let act2 := block act1 target_class (gf_dim * 8) num_classes (scope ++ "/g_block2")
  let act3 := block act2 target_class (gf_dim * 4) num_classes (scope ++ "/g_block3")
  let act4 := block act3 target_class (gf_dim * 2) num_classes (scope ++ "/g_block4")
  let act5 := block act4 target_class gf_dim num_classes (scope ++ "/g_block5")
  let act5b := GExpr.relu (GExpr.batchNorm act5 (scope ++ "/g_bn"))
  let act6 := GExpr.conv2d act5b 3 3 3 1 1 (scope ++ "/g_conv_last")
  GExpr.tanh act6

/-- Direct children of a graph node (the tensors fed into the operation). -/
def children : GExpr → List GExpr
  | .input _ => []
  | .linear x _ _ => [x]
  | .reshape x _ => [x]
  | .conv2d x _ _ _ _ _ _ => [x]
  | .condBatchNorm x l _ _ => [x, l]
  | .batchNorm x _ => [x]
  | .relu x => [x]
  | .tanh x => [x]
  | .add x y => [x, y]
  | .tile x _ => [x]
  | .batchToSpace x _ => [x]
  | .resizeNN x _ _ => [x]

/-- All nodes of the graph (the node itself and, recursively, its
children). -/
def subterms : GExpr → List GExpr
  | .input s => [.input s]
  | .linear x u nm => .linear x u nm :: subterms x
  | .reshape x d => .reshape x d :: subterms x
  | .conv2d x oc kh kw dh dw nm => .conv2d x oc kh kw dh dw nm :: subterms x
  | .condBatchNorm x l nc nm => .condBatchNorm x l nc nm :: (subterms x ++ subterms l)
  | .batchNorm x nm => .batchNorm x nm :: subterms x
  | .relu x => .relu x :: subterms x
  | .tanh x => .tanh x :: subterms x
  | .add x y => .add x y :: (subterms x ++ subterms y)
  | .tile x m => .tile x m :: subterms x
  | .batchToSpace x n => .batchToSpace x n :: subterms x
  | .resizeNN x th tw => .resizeNN x th tw :: subterms x

/-- A node is a framework operation (everything except a placeholder). -/
def isFrameworkOp : GExpr → Bool
  | .input _ => false
  | _ => true

/-- A failure of graph construction that originates in an external
framework call: some framework node of the graph is rejected by its own
shape rule even though all tensors fed into it were built successfully. -/
def FrameworkFailure (e : GExpr) : Prop :=
  ∃ s, s ∈ subterms e ∧ isFrameworkOp s = true ∧
    (∀ ch ∈ children s, (inferShape ch).isSome) ∧ inferShape s = none

/-- The conditional batch normalization applications of a graph, in
construction order: for each `condBatchNorm` node, its variable-scope name
and the labels tensor it conditions on. -/
def cbnApplications : GExpr → List (String × GExpr)
  | .input _ => []
  | .linear x _ _ => cbnApplications x
  | .reshape x _ => cbnApplications x
  | .conv2d x _ _ _ _ _ _ => cbnApplications x
  | .condBatchNorm x l _ nm => cbnApplications x ++ cbnApplications l ++ [(nm, l)]
  | .batchNorm x _ => cbnApplications x
  | .relu x => cbnApplications x
  | .tanh x => cbnApplications x
  | .add x y => cbnApplications x ++ cbnApplications y
  | .tile x _ => cbnApplications x
  | .batchToSpace x _ => cbnApplications x
  | .resizeNN x _ _ => cbnApplications x

/-- The kind of operation a graph node performs. -/
inductive OpKind where
  | placeholder
  | linearProj
  | convOp
  | condNorm
  | plainNorm
  | reshapeOp
  | reluOp
  | tanhOp
  | addOp
  | tileOp
  | batchToSpaceOp
  | resizeOp
deriving DecidableEq

/-- Kind of a graph node. -/
def kindOf : GExpr → OpKind
  | .input _ => .placeholder
  | .linear _ _ _ => .linearProj
  | .reshape _ _ => .reshapeOp
  | .conv2d _ _ _ _ _ _ _ => .convOp
  | .condBatchNorm _ _ _ _ => .condNorm
  | .batchNorm _ _ => .plainNorm
  | .relu _ => .reluOp
  | .tanh _ => .tanhOp
  | .add _ _ => .addOp
  | .tile _ _ => .tileOp
  | .batchToSpace _ _ => .batchToSpaceOp
  | .resizeNN _ _ _ => .resizeOp

/-- Kinds of all nodes in a graph. -/
def opKinds (e : GExpr) : List OpKind := (subterms e).map kindOf

/-- The four primitives delegated to the external ops library: linear
projection, 2D convolution, conditional/plain batch normalization, and
nearest-neighbor upsampling. -/
def isOpsPrimitive : OpKind → Bool
  | .linearProj => true
  | .convOp => true
  | .condNorm => true
  | .plainNorm => true
  | .resizeOp => true
  | _ => false

/-- Framework elementwise or reshaping calls (`tf.nn.relu`, `tf.nn.tanh`,
`+`, `tf.reshape`, `tf.tile`, `tf.batch_to_space`). -/
def isElementwiseOrReshaping : OpKind → Bool
  | .reluOp => true
  | .tanhOp => true
  | .addOp => true
  | .reshapeOp => true
  | .tileOp => true
  | .batchToSpaceOp => true
  | _ => false

/-- An operation kind allowed by the spec: one of the four ops-library
primitives, a framework elementwise/reshaping call, or an input
placeholder. -/
def allowedOp (k : OpKind) : Bool :=
  isOpsPrimitive k || isElementwiseOrReshaping k || k = OpKind.placeholder

/-- Concrete 4D tensor in B01C layout, over an arbitrary element type:
static shape plus a lookup function on indices. -/
structure Tensor4 (α : Type) where
  batch : Nat
  height : Nat
  width : Nat
  channels : Nat
  data : Nat → Nat → Nat → Nat → α

namespace Val

/-- Value semantics of `tf.tile(x, [m, 1, 1, 1])`: the batch dimension is
repeated `m` times. -/
def tile {α : Type} (x : Tensor4 α) (m : Nat) : Tensor4 α :=
  ⟨m * x.batch, x.height, x.width, x.channels,
    fun b h w c => x.data (b % x.batch) h w c⟩

/-- Value semantics of `tf.batch_to_space(y, [[0, 0], [0, 0]], n)`: blocks
of `n * n` consecutive batch slices are interleaved into space; output
pixel `(h, w)` of batch element `b` comes from batch element
`(h % n * n + w % n) * (batch / n^2) + b` at pixel `(h / n, w / n)`. -/
def batch_to_space {α : Type} (y : Tensor4 α) (n : Nat) : Tensor4 α :=
  ⟨y.batch / (n * n), y.height * n, y.width * n, y.channels,
    fun b h w c => y.data ((h % n * n + w % n) * (y.batch / (n * n)) + b) (h / n) (w / n) c⟩

/-- Value-level translation of `upscale(x, n)`. -/
def upscale {α : Type} (x : Tensor4 α) (n : Nat) : Tensor4 α :=
  if n = 1 then x else batch_to_space (tile x (n ^ 2)) n

/-- Value-level translation of `usample_tpu(x)`: `upscale(x, 2)`. -/
def usample_tpu {α : Type} (x : Tensor4 α) : Tensor4 α := upscale x 2

/-- Value semantics of `tf.image.resize_nearest_neighbor(x, [th, tw])`
(align_corners off): output pixel `(h, w)` comes from input pixel
`(h * height / th, w * width / tw)`, rounding down. -/
def resize_nearest_neighbor {α : Type} (x : Tensor4 α) (th tw : Nat) : Tensor4 α :=
  ⟨x.batch, th, tw, x.channels,
    fun b h w c => x.data b (h * x.height / th) (w * x.width / tw) c⟩

/-- Value-level translation of `usample(x)`: nearest-neighbor resize to
`[nh * 2, nw * 2]`. -/
def usample {α : Type} (x : Tensor4 α) : Tensor4 α :=
  resize_nearest_neighbor x (x.height * 2) (x.width * 2)

end Val

/-- Sample concrete tensor used to instantiate hypotheses of the
upsampling equivalence. -/
def sampleTensor : Tensor4 Nat :=
  ⟨2, 1, 2, 1, fun b h w c => 1000 * b + 100 * h + 10 * w + c⟩

end SNGAN

namespace SNGAN

theorem usample_eq {y : GExpr} {b h w c : Nat} (hy : inferShape y = some [b, h, w, c]) :
    usample y = GExpr.resizeNN y (h * 2) (w * 2) := by
  unfold usample
  rw [hy]

theorem inferShape_block {x l : GExpr} {b h w ch : Nat} {sl : List Nat} (oc nc : Nat)
    (nm : String) (hx : inferShape x = some [b, h, w, ch]) (hl : inferShape l = some sl) :
    inferShape (block x l oc nc nm) = some [b, h * 2, w * 2, oc] := by
  have hx1 : inferShape (GExpr.relu (GExpr.condBatchNorm x l nc (nm ++ "/cbn_0")))
      = some [b, h, w, ch] := by
    simp [inferShape, hx, hl, cbnRule]
  simp only [block]
  rw [usample_eq hx1, usample_eq hx]
  simp [inferShape, hx, hl, cbnRule, conv2dRule, resizeRule, addRule]

theorem inferShape_projection {zs : GExpr} {B Z g : Nat} (nm : String)
    (hz : inferShape zs = some [B, Z]) (hg : 0 < g) :
    inferShape (GExpr.reshape (GExpr.linear zs (g * 16 * 4 * 4) nm)
      [-1, 4, 4, Int.ofNat (g * 16)]) = some [B, 4, 4, g * 16] := by
  have h1 : ¬((g : Int) * 16 < 0) := by omega
  have h2 : ((g : Int) * 16).toNat = g * 16 := by omega
  simp [inferShape, hz, linearRule, reshapeRule, shapeProd, List.countP, List.countP.go,
    List.filterMap, h1, h2]
  have e : g * 16 * 4 * 4 = 4 * (4 * (g * 16)) := by ring
  refine ⟨⟨by omega, ?_⟩, ?_⟩
  · rw [e]
    exact Nat.mul_mod_left _ _
  · rw [e, Nat.mul_div_assoc _ dvd_rfl, Nat.div_self (by positivity), mul_one]

theorem inferShape_tail {a : GExpr} {B gf : Nat} (nm1 nm2 : String)
    (ha : inferShape a = some [B, 128, 128, gf]) :
    inferShape (GExpr.tanh (GExpr.conv2d (GExpr.relu (GExpr.batchNorm a nm1))
      3 3 3 1 1 nm2)) = some [B, 128, 128, 3] := by
  simp [inferShape, ha, bnRule, conv2dRule]

theorem inferShape_none_mem (e : GExpr) (h : inferShape e = none) :
    ∃ t, t ∈ subterms e ∧ isFrameworkOp t = true ∧
      (∀ ch ∈ children t, (inferShape ch).isSome) ∧ inferShape t = none := by
  induction e with
  | input s => simp [inferShape] at h
  | linear x u nm ih =>
      cases hx : inferShape x with
      | none =>
          obtain ⟨t, ht, hf, hch, hn⟩ := ih hx
          exact ⟨t, List.mem_cons_of_mem _ ht, hf, hch, hn⟩
      | some sx =>
          refine ⟨GExpr.linear x u nm, List.mem_cons_self _ _, rfl, ?_, h⟩
          intro ch hch
          simp [children] at hch
          subst hch
          simp [hx]
  | reshape x d ih =>
      cases hx : inferShape x with
      | none =>
          obtain ⟨t, ht, hf, hch, hn⟩ := ih hx
          exact ⟨t, List.mem_cons_of_mem _ ht, hf, hch, hn⟩
      | some sx =>
          refine ⟨GExpr.reshape x d, List.mem_cons_self _ _, rfl, ?_, h⟩
          intro ch hch
          simp [children] at hch
          subst hch
          simp [hx]
  | conv2d x oc kh kw dh dw nm ih =>
      cases hx : inferShape x with
      | none =>
          obtain ⟨t, ht, hf, hch, hn⟩ := ih hx
          exact ⟨t, List.mem_cons_of_mem _ ht, hf, hch, hn⟩
      | some sx =>
          refine ⟨GExpr.conv2d x oc kh kw dh dw nm, List.mem_cons_self _ _, rfl, ?_, h⟩
          intro ch hch
          simp [children] at hch
          subst hch
          simp [hx]
  | condBatchNorm x l nc nm ihx ihl =>
      cases hx : inferShape x with
      | none =>
          obtain ⟨t, ht, hf, hch, hn⟩ := ihx hx
          exact ⟨t, List.mem_cons_of_mem _ (List.mem_append_left _ ht), hf, hch, hn⟩
      | some sx =>
          cases hl : inferShape l with
          | none =>
              obtain ⟨t, ht, hf, hch, hn⟩ := ihl hl
              exact ⟨t, List.mem_cons_of_mem _ (List.mem_append_right _ ht), hf, hch, hn⟩
          | some sl =>
              refine ⟨GExpr.condBatchNorm x l nc nm, List.mem_cons_self _ _, rfl, ?_, h⟩
              intro ch hch
              simp [children] at hch
              rcases hch with rfl | rfl
              · simp [hx]
              · simp [hl]
  | batchNorm x nm ih =>
      cases hx : inferShape x with
      | none =>
          obtain ⟨t, ht, hf, hch, hn⟩ := ih hx
          exact ⟨t, List.mem_cons_of_mem _ ht, hf, hch, hn⟩
      | some sx =>
          refine ⟨GExpr.batchNorm x nm, List.mem_cons_self _ _, rfl, ?_, h⟩
          intro ch hch
          simp [children] at hch
          subst hch
          simp [hx]
  | relu x ih =>
      cases hx : inferShape x with
      | none =>
          obtain ⟨t, ht, hf, hch, hn⟩ := ih hx
          exact ⟨t, List.mem_cons_of_mem _ ht, hf, hch, hn⟩
      | some sx => simp [inferShape, hx] at h
  | tanh x ih =>
      cases hx : inferShape x with
      | none =>
          obtain ⟨t, ht, hf, hch, hn⟩ := ih hx
          exact ⟨t, List.mem_cons_of_mem _ ht, hf, hch, hn⟩
      | some sx => simp [inferShape, hx] at h
  | add x y ihx ihy =>
      cases hx : inferShape x with
      | none =>
          obtain ⟨t, ht, hf, hch, hn⟩ := ihx hx
          exact ⟨t, List.mem_cons_of_mem _ (List.mem_append_left _ ht), hf, hch, hn⟩
      | some sx =>
          cases hy : inferShape y with
          | none =>
              obtain ⟨t, ht, hf, hch, hn⟩ := ihy hy
              exact ⟨t, List.mem_cons_of_mem _ (List.mem_append_right _ ht), hf, hch, hn⟩
          | some sy =>
              refine ⟨GExpr.add x y, List.mem_cons_self _ _, rfl, ?_, h⟩
              intro ch hch
              simp [children] at hch
              rcases hch with rfl | rfl
              · simp [hx]
              · simp [hy]
  | tile x m ih =>
      cases hx : inferShape x with
      | none =>
          obtain ⟨t, ht, hf, hch, hn⟩ := ih hx
          exact ⟨t, List.mem_cons_of_mem _ ht, hf, hch, hn⟩
      | some sx =>
          refine ⟨GExpr.tile x m, List.mem_cons_self _ _, rfl, ?_, h⟩
          intro ch hch
          simp [children] at hch
          subst hch
          simp [hx]
  | batchToSpace x n ih =>
      cases hx : inferShape x with
      | none =>
          obtain ⟨t, ht, hf, hch, hn⟩ := ih hx
          exact ⟨t, List.mem_cons_of_mem _ ht, hf, hch, hn⟩
      | some sx =>
          refine ⟨GExpr.batchToSpace x n, List.mem_cons_self _ _, rfl, ?_, h⟩
          intro ch hch
          simp [children] at hch
          subst hch
          simp [hx]
  | resizeNN x th tw ih =>
      cases hx : inferShape x with
      | none =>
          obtain ⟨t, ht, hf, hch, hn⟩ := ih hx
          exact ⟨t, List.mem_cons_of_mem _ ht, hf, hch, hn⟩
      | some sx =>
          refine ⟨GExpr.resizeNN x th tw, List.mem_cons_self _ _, rfl, ?_, h⟩
          intro ch hch
          simp [children] at hch
          subst hch
          simp [hx]

theorem usampleConstruct_some {x e : GExpr} (h : usampleConstruct x = some e) :
    e = usample x ∧ (inferShape e).isSome := by
  unfold usampleConstruct at h
  cases hx : inferShape x with
  | none => rw [hx] at h; simp at h
  | some s =>
      rw [hx] at h
      rcases s with _ | ⟨a, _ | ⟨b, _ | ⟨c, _ | ⟨d, _ | ⟨f, rest⟩⟩⟩⟩⟩
      · simp at h
      · simp at h
      · simp at h
      · simp at h
      · simp at h
        subst h
        refine ⟨(usample_eq hx).symm, ?_⟩
        simp [inferShape, hx, resizeRule]
      · simp at h

theorem usampleConstruct_none_iff (x : GExpr) :
    usampleConstruct x = none ↔ ∀ b h w ch : Nat, inferShape x ≠ some [b, h, w, ch] := by
  unfold usampleConstruct
  cases hx : inferShape x with
  | none => simp [hx]
  | some s =>
      rcases s with _ | ⟨a, _ | ⟨b, _ | ⟨c, _ | ⟨d, _ | ⟨f, rest⟩⟩⟩⟩⟩
      · simp [hx]
      · simp [hx]
      · simp [hx]
      · simp [hx]
      · constructor
        · intro hco
          simp at hco
        · intro hall
          exact absurd rfl (hall a b c d)
      · simp [hx]

theorem cbnApplications_usample (y : GExpr) :
    cbnApplications (usample y) = cbnApplications y := by
  unfold usample
  split <;> simp [cbnApplications]

theorem cbnApplications_block_mem {x l : GExpr} {oc nc : Nat} {nm : String} :
    ∀ p ∈ cbnApplications (block x l oc nc nm),
      p ∈ cbnApplications x ∨ p ∈ cbnApplications l ∨
        p = (nm ++ "/cbn_0", l) ∨ p = (nm ++ "/cbn_1", l) := by
  intro p hp
  simp only [block, cbnApplications, cbnApplications_usample, List.mem_append,
    List.mem_singleton] at hp
  tauto

theorem cbnApplications_tail (a : GExpr) (nm1 nm2 : String) :
    cbnApplications (GExpr.tanh (GExpr.conv2d (GExpr.relu (GExpr.batchNorm a nm1))
      3 3 3 1 1 nm2)) = cbnApplications a := rfl

theorem generator_cbn_labels (sz scl : List Nat) (g nc : Nat) (s : String) :
    ∀ p ∈ cbnApplications (generator (GExpr.input sz) (GExpr.input scl) g nc s),
      p.2 = GExpr.input scl := by
  intro p hp
  simp only [generator] at hp
  rw [cbnApplications_tail] at hp
  have step : ∀ (x : GExpr) (oc : Nat) (nm : String),
      p ∈ cbnApplications (block x (GExpr.input scl) oc nc nm) →
      p ∈ cbnApplications x ∨ p.2 = GExpr.input scl := by
    intro x oc nm hmem
    rcases cbnApplications_block_mem p hmem with h | h | rfl | rfl
    · exact Or.inl h
    · simp [cbnApplications] at h
    · exact Or.inr rfl
    · exact Or.inr rfl
  rcases step _ _ _ hp with hp | hgoal
  · rcases step _ _ _ hp with hp | hgoal
    · rcases step _ _ _ hp with hp | hgoal
      · rcases step _ _ _ hp with hp | hgoal
        · rcases step _ _ _ hp with hp | hgoal
          · simp [cbnApplications] at hp
          · exact hgoal
        · exact hgoal
      · exact hgoal
    · exact hgoal
  · exact hgoal

theorem opKinds_allowed (e : GExpr) : (opKinds e).all allowedOp = true := by
  induction e with
  | input s => rfl
  | linear x u nm ih =>
      simp [opKinds, subterms, List.all_cons, kindOf, allowedOp, isOpsPrimitive] at ih ⊢
      exact ih
  | reshape x d ih =>
      simp [opKinds, subterms, List.all_cons, kindOf, allowedOp,
        isElementwiseOrReshaping] at ih ⊢
      exact ih
  | conv2d x oc kh kw dh dw nm ih =>
      simp [opKinds, subterms, List.all_cons, kindOf, allowedOp, isOpsPrimitive] at ih ⊢
      exact ih
  | condBatchNorm x l nc nm ihx ihl =>
      simp [opKinds, subterms, List.all_cons, List.all_append, kindOf, allowedOp,
        isOpsPrimitive] at ihx ihl ⊢
      exact ⟨ihx, ihl⟩
  | batchNorm x nm ih =>
      simp [opKinds, subterms, List.all_cons, kindOf, allowedOp, isOpsPrimitive] at ih ⊢
      exact ih
  | relu x ih =>
      simp [opKinds, subterms, List.all_cons, kindOf, allowedOp,
        isElementwiseOrReshaping] at ih ⊢
      exact ih
  | tanh x ih =>
      simp [opKinds, subterms, List.all_cons, kindOf, allowedOp,
        isElementwiseOrReshaping] at ih ⊢
      exact ih
  | add x y ihx ihy =>
      simp [opKinds, subterms, List.all_cons, List.all_append, kindOf, allowedOp,
        isElementwiseOrReshaping] at ihx ihy ⊢
      exact ⟨ihx, ihy⟩
  | tile x m ih =>
      simp [opKinds, subterms, List.all_cons, kindOf, allowedOp,
        isElementwiseOrReshaping] at ih ⊢
      exact ih
  | batchToSpace x n ih =>
      simp [opKinds, subterms, List.all_cons, kindOf, allowedOp,
        isElementwiseOrReshaping] at ih ⊢
      exact ih
  | resizeNN x th tw ih =>
      simp [opKinds, subterms, List.all_cons, kindOf, allowedOp, isOpsPrimitive] at ih ⊢
      exact ih

end SNGAN

namespace SNGAN

/-- C1: for every batch of noise vectors `zs` of batch size `B` (a rank-2
input `[B, Z]`) and any valid `target_class`, positive `gf_dim` and any
`num_classes`, the tensor returned by `generator` has static shape
`[B, 128, 128, 3]`: the projected latent starts at spatial size 4x4, each
of the five blocks doubles height and width (4, 8, 16, 32, 64, 128), and
the final convolution produces 3 channels. -/
theorem generator_output_shape {zs target_class : GExpr} {B Z : Nat} {sc : List Nat}
    (gf_dim num_classes : Nat) (scope : String)
    (hz : inferShape zs = some [B, Z])
    (hc : inferShape target_class = some sc)
    (hg : 0 < gf_dim) :
    let p := GExpr.reshape (GExpr.linear zs (gf_dim * 16 * 4 * 4) (scope ++ "/g_h0"))
      [-1, 4, 4, Int.ofNat (gf_dim * 16)]
    let a1 := block p target_class (gf_dim * 16) num_classes (scope ++ "/g_block1")
    let a2 := block a1 target_class (gf_dim * 8) num_classes (scope ++ "/g_block2")
    let a3 := block a2 target_class (gf_dim * 4) num_classes (scope ++ "/g_block3")
    let a4 := block a3 target_class (gf_dim * 2) num_classes (scope ++ "/g_block4")
    let a5 := block a4 target_class gf_dim num_classes (scope ++ "/g_block5")
    inferShape p = some [B, 4, 4, gf_dim * 16] ∧
    inferShape a1 = some [B, 8, 8, gf_dim * 16] ∧
    inferShape a2 = some [B, 16, 16, gf_dim * 8] ∧
    inferShape a3 = some [B, 32, 32, gf_dim * 4] ∧
    inferShape a4 = some [B, 64, 64, gf_dim * 2] ∧
    inferShape a5 = some [B, 128, 128, gf_dim] ∧
    inferShape (generator zs target_class gf_dim num_classes scope) =
      some [B, 128, 128, 3] := by
  have hp := inferShape_projection (scope ++ "/g_h0") hz hg
  have h1 := inferShape_block (gf_dim * 16) num_classes (scope ++ "/g_block1") hp hc
  have h2 := inferShape_block (gf_dim * 8) num_classes (scope ++ "/g_block2") h1 hc
  have h3 := inferShape_block (gf_dim * 4) num_classes (scope ++ "/g_block3") h2 hc
  have h4 := inferShape_block (gf_dim * 2) num_classes (scope ++ "/g_block4") h3 hc
  have h5 := inferShape_block gf_dim num_classes (scope ++ "/g_block5") h4 hc
  refine ⟨hp, h1, h2, h3, h4, h5, ?_⟩
  simp only [generator]
  exact inferShape_tail _ _ h5

/-- Witness for C1 at a concrete input: a batch of 2 noise vectors of
length 16, 2 labels, `gf_dim = 1`, 10 classes. -/
theorem generator_output_shape_witness :
    inferShape (GExpr.input [2, 16]) = some [2, 16] ∧ 0 < 1 ∧
    inferShape (generator (GExpr.input [2, 16]) (GExpr.input [2]) 1 10 "G") =
      some [2, 128, 128, 3] :=
  ⟨rfl, by decide,
    (@generator_output_shape (GExpr.input [2, 16]) (GExpr.input [2]) 2 16 [2] 1 10 "G"
      rfl rfl (by decide)).2.2.2.2.2.2⟩

/-- C2: `generator` maps its noise input and class label to the output
image by a linear projection and reshape, then exactly five residual
upsampling blocks applied in sequence, followed by batch norm, relu, a
final convolution and tanh; and each `block` sums a learned main path with
a shortcut path, both upsampled by a factor of 2. -/
theorem generator_pipeline_structure (zs c x l : GExpr) (g nc oc : Nat) (s nm : String) :
    generator zs c g nc s =
      GExpr.tanh (GExpr.conv2d (GExpr.relu (GExpr.batchNorm
        (List.foldl (fun acc pr => block acc c pr.1 nc pr.2)
          (GExpr.reshape (GExpr.linear zs (g * 16 * 4 * 4) (s ++ "/g_h0"))
            [-1, 4, 4, Int.ofNat (g * 16)])
          [(g * 16, s ++ "/g_block1"), (g * 8, s ++ "/g_block2"), (g * 4, s ++ "/g_block3"),
            (g * 2, s ++ "/g_block4"), (g, s ++ "/g_block5")])
        (s ++ "/g_bn"))) 3 3 3 1 1 (s ++ "/g_conv_last")) ∧
    block x l oc nc nm =
      GExpr.add
        (GExpr.conv2d (usample x) oc 1 1 1 1 (nm ++ "/conv3"))
        (GExpr.conv2d (GExpr.relu (GExpr.condBatchNorm
          (GExpr.conv2d (usample (GExpr.relu (GExpr.condBatchNorm x l nc (nm ++ "/cbn_0"))))
            oc 3 3 1 1 (nm ++ "/conv1"))
          l nc (nm ++ "/cbn_1"))) oc 3 3 1 1 (nm ++ "/conv2")) :=
  ⟨rfl, rfl⟩

/-- C3: every residual block applies class-conditional normalization: the
conditional batch norm applications of `block` are exactly `cbn_0` and
`cbn_1`, both conditioned on the `labels` argument, and every conditional
batch norm in the graph built by `generator` is conditioned on the very
`target_class` tensor passed to `generator`. -/
theorem block_cbn_conditioning (sx scl sz : List Nat) (g nc oc : Nat) (s nm : String) :
    cbnApplications (block (GExpr.input sx) (GExpr.input scl) oc nc nm) =
      [(nm ++ "/cbn_0", GExpr.input scl), (nm ++ "/cbn_1", GExpr.input scl)] ∧
    ∀ p ∈ cbnApplications (generator (GExpr.input sz) (GExpr.input scl) g nc s),
      p.2 = GExpr.input scl := by
  constructor
  · simp [block, cbnApplications, cbnApplications_usample]
  · exact generator_cbn_labels sz scl g nc s

/-- Witness for C3: a concrete conditional batch norm application found in
a concrete generator graph carries the generator's labels argument. -/
theorem block_cbn_conditioning_witness :
    ("G/g_block1/cbn_0", GExpr.input [2]) ∈
      cbnApplications (generator (GExpr.input [2, 16]) (GExpr.input [2]) 1 10 "G") ∧
    (("G/g_block1/cbn_0", GExpr.input [2]) : String × GExpr).2 = GExpr.input [2] :=
  ⟨by decide,
    (block_cbn_conditioning [2, 16] [2] [2, 16] 1 10 3 "G" "b").2 _ (by decide)⟩

/-- C4: every node of the graphs built by `upscale`, `usample_tpu`,
`usample`, `block` and `generator` is one of the four ops-library
primitives (linear projection, 2D convolution, conditional/plain batch
normalization, nearest-neighbor upsampling), a framework
elementwise/reshaping call, or an input placeholder; no other operation
occurs. -/
theorem ops_vocabulary (sz sc : List Nat) (g nc oc n : Nat) (s nm : String) :
    ((opKinds (upscale (GExpr.input sz) n)).all allowedOp = true) ∧
    ((opKinds (usample_tpu (GExpr.input sz))).all allowedOp = true) ∧
    ((opKinds (usample (GExpr.input sz))).all allowedOp = true) ∧
    ((opKinds (block (GExpr.input sz) (GExpr.input sc) oc nc nm)).all allowedOp = true) ∧
    ((opKinds (generator (GExpr.input sz) (GExpr.input sc) g nc s)).all allowedOp = true) :=
  ⟨opKinds_allowed _, opKinds_allowed _, opKinds_allowed _, opKinds_allowed _,
    opKinds_allowed _⟩

/-- C5 counterexample: the claim that every construction failure in the
module originates in an external framework call is false at `usample` on a
rank-1 input.  There, `usampleConstruct` (the faithful construction
behavior of `usample`) fails, even though the one framework call `usample`
made — the static-shape query — succeeded and the input graph contains no
failing framework node at all: the error is raised by the module's own
tuple-unpacking statement. -/
theorem usample_module_unpack_counterexample :
    usampleConstruct (GExpr.input [5]) = none ∧
    inferShape (GExpr.input [5]) = some [5] ∧
    ¬FrameworkFailure (GExpr.input [5]) := by
  refine ⟨rfl, rfl, ?_⟩
  rintro ⟨t, ht, hf, -, -⟩
  simp [subterms] at ht
  subst ht
  simp [isFrameworkOp] at hf

/-- C5 (amended): the module raises no custom error and performs no input
validation of its own: the builders are total, and whenever construction of
a graph built by `upscale`, `usample_tpu`, `block` or `generator` fails,
the failure originates at an external framework call whose own shape rule
rejects its successfully-built inputs; `usample` too returns a tensor
whenever its input has a rank-4 static shape, but on any other input its
construction fails at the module's own tuple unpacking — the single
failure that does not originate in a framework call.  (Inside `block` and
`generator` that unpacking is never reached: the conditional batch norm,
linear projection or reshape framework calls that precede each internal
`usample` reject a mis-ranked tensor first, so their failures remain
framework-originated.) -/
theorem construction_errors_from_framework_amended (x zs c : GExpr) (n oc nc g : Nat)
    (nm s : String) :
    (inferShape (upscale x n) = none → FrameworkFailure (upscale x n)) ∧
    (inferShape (usample_tpu x) = none → FrameworkFailure (usample_tpu x)) ∧
    (∀ e, usampleConstruct x = some e → e = usample x ∧ (inferShape e).isSome) ∧
    (usampleConstruct x = none ↔ ∀ b h w ch : Nat, inferShape x ≠ some [b, h, w, ch]) ∧
    (inferShape (block x c oc nc nm) = none → FrameworkFailure (block x c oc nc nm)) ∧
    (inferShape (generator zs c g nc s) = none → FrameworkFailure (generator zs c g nc s)) :=
  ⟨fun h => inferShape_none_mem _ h, fun h => inferShape_none_mem _ h,
    fun _ h => usampleConstruct_some h, usampleConstruct_none_iff x,
    fun h => inferShape_none_mem _ h, fun h => inferShape_none_mem _ h⟩

/-- Witness for the amended C5: on a rank-1 input the graphs of `upscale`,
`usample_tpu`, `block` and `generator` fail at framework calls, and on a
rank-4 input `usample` construction succeeds with a well-shaped resize
graph. -/
theorem construction_errors_from_framework_amended_witness :
    FrameworkFailure (upscale (GExpr.input [5]) 2) ∧
    FrameworkFailure (usample_tpu (GExpr.input [5])) ∧
    (GExpr.resizeNN (GExpr.input [1, 2, 2, 1]) 4 4 = usample (GExpr.input [1, 2, 2, 1]) ∧
      (inferShape (GExpr.resizeNN (GExpr.input [1, 2, 2, 1]) 4 4)).isSome) ∧
    FrameworkFailure (block (GExpr.input [5]) (GExpr.input [1]) 1 3 "b") ∧
    FrameworkFailure (generator (GExpr.input [5]) (GExpr.input [1]) 1 3 "G") := by
  have h := construction_errors_from_framework_amended (GExpr.input [5]) (GExpr.input [5])
    (GExpr.input [1]) 2 1 3 1 "b" "G"
  have h4 := construction_errors_from_framework_amended (GExpr.input [1, 2, 2, 1])
    (GExpr.input [5]) (GExpr.input [1]) 2 1 3 1 "b" "G"
  exact ⟨h.1 (by decide), h.2.1 (by decide),
    h4.2.2.1 (GExpr.resizeNN (GExpr.input [1, 2, 2, 1]) 4 4) (by decide),
    h.2.2.2.2.1 (by decide), h.2.2.2.2.2 (by decide)⟩

/-- C6: the public interface is the single in-process function `generator`:
for any noise tensor and class labels (and dimensions and scope) it returns
exactly one output tensor. -/
theorem single_function_interface (zs target_class : GExpr) (gf_dim num_classes : Nat)
    (scope : String) :
    ∃! out : GExpr, generator zs target_class gf_dim num_classes scope = out :=
  ⟨generator zs target_class gf_dim num_classes scope, rfl, fun _ hy => hy.symm⟩

/-- C7: graph construction is deterministic: two calls to `generator` with
identical arguments build identical graphs; the builder depends on nothing
but its arguments. -/
theorem graph_construction_deterministic (zs zs2 c c2 : GExpr) (g g2 nc nc2 : Nat)
    (s s2 : String)
    (hzs : zs = zs2) (hc : c = c2) (hg : g = g2) (hnc : nc = nc2) (hs : s = s2) :
    generator zs c g nc s = generator zs2 c2 g2 nc2 s2 := by
  subst hzs hc hg hnc hs
  rfl

/-- Witness for C7 at concrete equal arguments. -/
theorem graph_construction_deterministic_witness :
    GExpr.input [1, 8] = GExpr.input [1, 8] ∧
    generator (GExpr.input [1, 8]) (GExpr.input [1]) 1 2 "G" =
      generator (GExpr.input [1, 8]) (GExpr.input [1]) 1 2 "G" :=
  ⟨rfl, graph_construction_deterministic _ _ _ _ _ _ _ _ _ _ rfl rfl rfl rfl rfl⟩

/-- C8: for every input `x` of static shape `[b, h, w, ch]` (and any
well-formed labels), `block` is the sum of a shortcut branch and a main
branch, and both branches, as well as the block itself, have static shape
`[b, 2h, 2w, out_channels]`, so the final elementwise addition is
well-defined. -/
theorem block_branch_shapes {x l : GExpr} {b h w ch : Nat} {sl : List Nat}
    (oc nc : Nat) (nm : String)
    (hx : inferShape x = some [b, h, w, ch]) (hl : inferShape l = some sl) :
    block x l oc nc nm =
      GExpr.add
        (GExpr.conv2d (usample x) oc 1 1 1 1 (nm ++ "/conv3"))
        (GExpr.conv2d (GExpr.relu (GExpr.condBatchNorm
          (GExpr.conv2d (usample (GExpr.relu (GExpr.condBatchNorm x l nc (nm ++ "/cbn_0"))))
            oc 3 3 1 1 (nm ++ "/conv1"))
          l nc (nm ++ "/cbn_1"))) oc 3 3 1 1 (nm ++ "/conv2")) ∧
    inferShape (GExpr.conv2d (usample x) oc 1 1 1 1 (nm ++ "/conv3")) =
      some [b, h * 2, w * 2, oc] ∧
    inferShape (GExpr.conv2d (GExpr.relu (GExpr.condBatchNorm
        (GExpr.conv2d (usample (GExpr.relu (GExpr.condBatchNorm x l nc (nm ++ "/cbn_0"))))
          oc 3 3 1 1 (nm ++ "/conv1"))
        l nc (nm ++ "/cbn_1"))) oc 3 3 1 1 (nm ++ "/conv2")) =
      some [b, h * 2, w * 2, oc] ∧
    inferShape (block x l oc nc nm) = some [b, h * 2, w * 2, oc] := by
  have hx1 : inferShape (GExpr.relu (GExpr.condBatchNorm x l nc (nm ++ "/cbn_0")))
      = some [b, h, w, ch] := by
    simp [inferShape, hx, hl, cbnRule]
  refine ⟨rfl, ?_, ?_, inferShape_block oc nc nm hx hl⟩
  · rw [usample_eq hx]
    simp [inferShape, hx, resizeRule, conv2dRule]
  · rw [usample_eq hx1]
    simp [inferShape, hx, hx1, hl, cbnRule, conv2dRule, resizeRule]

/-- Witness for C8 at a concrete rank-4 input of shape `[1, 4, 4, 2]`. -/
theorem block_branch_shapes_witness :
    inferShape (GExpr.input [1, 4, 4, 2]) = some [1, 4, 4, 2] ∧
    inferShape (block (GExpr.input [1, 4, 4, 2]) (GExpr.input [1]) 3 5 "b") =
      some [1, 4 * 2, 4 * 2, 3] :=
  ⟨rfl, (@block_branch_shapes (GExpr.input [1, 4, 4, 2]) (GExpr.input [1]) 1 4 4 2 [1]
    3 5 "b" rfl rfl).2.2.2⟩

/-- C9: `usample_tpu` and `usample` are equivalent: on every 4D tensor the
two produce the same shape, and on every in-range index the same element.
-/
theorem usample_tpu_equiv_usample {α : Type} (x : Tensor4 α) :
    (Val.usample_tpu x).batch = (Val.usample x).batch ∧
    (Val.usample_tpu x).height = (Val.usample x).height ∧
    (Val.usample_tpu x).width = (Val.usample x).width ∧
    (Val.usample_tpu x).channels = (Val.usample x).channels ∧
    ∀ b h w c, b < x.batch → h < x.height * 2 → w < x.width * 2 →
      (Val.usample_tpu x).data b h w c = (Val.usample x).data b h w c := by
  refine ⟨?_, ?_, ?_, ?_, ?_⟩
  · simp [Val.usample_tpu, Val.upscale, Val.batch_to_space, Val.tile, Val.usample,
      Val.resize_nearest_neighbor]
  · simp [Val.usample_tpu, Val.upscale, Val.batch_to_space, Val.tile, Val.usample,
      Val.resize_nearest_neighbor]
  · simp [Val.usample_tpu, Val.upscale, Val.batch_to_space, Val.tile, Val.usample,
      Val.resize_nearest_neighbor]
  · simp [Val.usample_tpu, Val.upscale, Val.batch_to_space, Val.tile, Val.usample,
      Val.resize_nearest_neighbor]
  · intro b h w c hb hh hw
    have hH : 0 < x.height := by omega
    have hW : 0 < x.width := by omega
    simp only [Val.usample_tpu, Val.upscale, Val.batch_to_space, Val.tile, Val.usample,
      Val.resize_nearest_neighbor]
    norm_num
    have e2 : (h % 2 * 2 + w % 2) * x.batch + b = b + (h % 2 * 2 + w % 2) * x.batch := by
      ring
    rw [e2, Nat.add_mul_mod_self_right, Nat.mod_eq_of_lt hb]
    have e3 : h * x.height / (x.height * 2) = h / 2 := by
      rw [Nat.mul_comm h]
      exact Nat.mul_div_mul_left _ _ hH
    have e4 : w * x.width / (x.width * 2) = w / 2 := by
      rw [Nat.mul_comm w]
      exact Nat.mul_div_mul_left _ _ hW
    rw [e3, e4]

/-- Witness for C9 at a concrete 2x1x2x1 tensor and a concrete in-range
index. -/
theorem usample_tpu_equiv_usample_witness :
    (1 < sampleTensor.batch ∧ 1 < sampleTensor.height * 2 ∧ 3 < sampleTensor.width * 2) ∧
    (Val.usample_tpu sampleTensor).data 1 1 3 0 = (Val.usample sampleTensor).data 1 1 3 0 :=
  ⟨⟨by decide, by decide, by decide⟩,
    (usample_tpu_equiv_usample sampleTensor).2.2.2.2 1 1 3 0 (by decide) (by decide)
      (by decide)⟩

/-- C10: `upscale` with scale factor 1 is the identity: it returns the very
same graph node, applying no framework operation. -/
theorem upscale_one_identity (x : GExpr) : upscale x 1 = x := rfl

end SNGAN
